import Mathlib

/-!
Shallow embedding of the statistical analysis logic of a tournament
analytics frontend.  The embedded functions are transcribed from the
page components:

* `src/app/survival/page.tsx` — survival-milestone lookups
  (`getMedianSurvivalRound`, `get75thPercentileRound`);
* `src/app/turn-order/page.tsx` — chi-square / Cohen's w seat-fairness
  computation and effect-size classification;
* `src/app/commanders/[id]/page.tsx` — `toNumber`, `normalCdf` and the
  inline two-sided p-value computation.

Idealised real-number models use `ℝ` for JavaScript numbers.  Where a
claim hinges on IEEE-754 special values (division by zero, NaN
propagation), a separate `JsVal` model mirrors the JavaScript semantics
of the special values exactly, with finite arithmetic idealised as exact
real arithmetic.
-/

namespace CedhAnalytics

/-! ### Survival-curve milestones (`src/app/survival/page.tsx`)

The survival rows arrive from the data layer already aggregated; the
page only scans them.  `round_number`, `players_at_risk` and
`players_survived` are integers, the two rates are numeric values
modelled as exact rationals. -/

structure SurvivalPoint where
  round_number : ℕ
  players_at_risk : ℕ
  players_survived : ℕ
  survival_rate : ℚ
  cumulative_survival : ℚ
  deriving Repr, DecidableEq

/-- `getMedianSurvivalRound` from `src/app/survival/page.tsx`:
`data.find((p) => p.cumulative_survival <= 0.5)` and then
`medianPoint ? medianPoint.round_number : null`. -/
def getMedianSurvivalRound (data : List SurvivalPoint) : Option ℕ :=
  (data.find? (fun p => p.cumulative_survival ≤ 0.5)).map (·.round_number)

/-- `get75thPercentileRound` from `src/app/survival/page.tsx`:
`data.find((p) => p.cumulative_survival <= 0.25)` and then
`point ? point.round_number : null`. -/
def get75thPercentileRound (data : List SurvivalPoint) : Option ℕ :=
  (data.find? (fun p => p.cumulative_survival ≤ 0.25)).map (·.round_number)

/-- Modelled from the spec's words: the smallest `roundNumber` whose
`cumulativeSurvival` is at or below the threshold, `none` when no such
point exists.  Used to compare the code's forward scan against the
spec's description. -/
def specPercentileRound (threshold : ℚ) (data : List SurvivalPoint) : Option ℕ :=
  ((data.filter (fun p => p.cumulative_survival ≤ threshold)).map (·.round_number)).min?

/-! ### Seat fairness (`src/app/turn-order/page.tsx`), real-number model

The page computes, over the fetched `stats` array:
`totalWins = stats.reduce((sum, s) => sum + s.wins, 0)`,
`expectedWins = totalWins / 4`,
`chiSquare = stats.reduce((sum, s) => sum + diff*diff/expectedWins, 0)`
with `diff = s.wins - expectedWins`,
`cohensW = Math.sqrt(chiSquare / totalWins)`, and
`effectInterpretation = cohensW < 0.1 ? "small" : cohensW < 0.3 ? "medium" : "large"`.
Only the per-seat `wins` field enters these formulas, so the model takes
the list of win counts. -/

def totalWins (wins : List ℝ) : ℝ :=
  wins.foldl (fun sum w => sum + w) 0

noncomputable def chiSquare (wins : List ℝ) : ℝ :=
  let expectedWins := totalWins wins / 4
  wins.foldl (fun sum w => sum + (w - expectedWins) * (w - expectedWins) / expectedWins) 0

noncomputable def cohensW (wins : List ℝ) : ℝ :=
  Real.sqrt (chiSquare wins / totalWins wins)

open Classical in
noncomputable def effectInterpretation (w : ℝ) : String :=
  if w < 0.1 then "small" else if w < 0.3 then "medium" else "large"

/-! ### Normal CDF and two-sided p-value
(`src/app/commanders/[id]/page.tsx`), real-number model -/

open Classical in
/-- `normalCdf` from `src/app/commanders/[id]/page.tsx` (Abramowitz-Stegun
rational approximation of the error function). -/
noncomputable def normalCdf (x : ℝ) : ℝ :=
  let sign : ℝ := if x ≥ 0 then 1 else -1
  let absX := |x|
  let t := 1 / (1 + 0.3275911 * absX)
  let a1 : ℝ := 0.254829592
  let a2 : ℝ := -0.284496736
  let a3 : ℝ := 1.421413741
  let a4 : ℝ := -1.453152027
  let a5 : ℝ := 1.061405429
  let erf := 1 - (((((a5 * t + a4) * t + a3) * t + a2) * t + a1) * t) *
    Real.exp ((-absX) * absX)
  0.5 * (1 + sign * erf)

open Classical in
/-- Modelled from the spec's words: `t = 1/(1 + 0.3275911·|x|)`,
`erf(|x|) = 1 - (((((a5·t + a4)·t + a3)·t + a2)·t + a1)·t)·exp(-x²)` and
`normalCdf(x) = 0.5·(1 + sign(x)·erf(|x|))`, where `sign(x)` is the
code's convention `x >= 0 ? 1 : -1` (the sign at `x = 0` is `+1`). -/
noncomputable def normalCdfSpec (x : ℝ) : ℝ :=
  let sgn : ℝ := if x ≥ 0 then 1 else -1
  let t := 1 / (1 + 0.3275911 * |x|)
  let erfAbs := 1 - (((((1.061405429 * t + -1.453152027) * t + 1.421413741) * t +
    -0.284496736) * t + 0.254829592) * t) * Real.exp (-(x ^ 2))
  0.5 * (1 + sgn * erfAbs)

/-- The inline p-value computation repeated in
`src/app/commanders/[id]/page.tsx`:
`zScore = winRateDelta / (stdDev / Math.sqrt(deck_count))` and
`pValue = 2 * (1 - normalCdf(Math.abs(zScore)))`. -/
noncomputable def computePValue (delta stdDev : ℝ) (deckCount : ℕ) : ℝ :=
  let zScore := delta / (stdDev / Real.sqrt deckCount)
  2 * (1 - normalCdf |zScore|)

/-! ### Numeric-coercion boundary (`toNumber`) -/

/-- The possible JavaScript values reaching `toNumber`
(`number | string | null | undefined`); a number is modelled as a real. -/
inductive JsInput where
  | num (x : ℝ)
  | str (s : String)
  | nullV
  | undef

/-- `toNumber` from `src/app/commanders/[id]/page.tsx`:
`if (val === null || val === undefined) return 0;`
`return typeof val === "string" ? parseFloat(val) : val;`.
`parseFloat` is a JavaScript builtin, not repository code, so it is a
parameter of the model. -/
def toNumber (parseFloat : String → ℝ) : JsInput → ℝ
  | .nullV => 0
  | .undef => 0
  | .str s => parseFloat s
  | .num x => x

/-- `MatchupRow` displays `const winRate = toNumber(matchup.win_rate) * 100`. -/
def matchupDisplayedWinRate (parseFloat : String → ℝ) (winRate : JsInput) : ℝ :=
  toNumber parseFloat winRate * 100

/-! ### IEEE-754 special-value model of JavaScript numbers

`JsVal` idealises a JavaScript number as an exact real, positive or
negative infinity, or NaN.  The operations follow the IEEE-754 / JS
rules for the special values (with the sign of zero ignored, since no
code path here produces a negative zero); finite arithmetic is exact. -/

inductive JsVal where
  | fin (x : ℝ)
  | posInf
  | negInf
  | nan

namespace JsVal

noncomputable def add : JsVal → JsVal → JsVal
  | nan, _ => nan
  | _, nan => nan
  | fin a, fin b => fin (a + b)
  | fin _, posInf => posInf
  | posInf, fin _ => posInf
  | fin _, negInf => negInf
  | negInf, fin _ => negInf
  | posInf, posInf => posInf
  | negInf, negInf => negInf
  | posInf, negInf => nan
  | negInf, posInf => nan

noncomputable def sub : JsVal → JsVal → JsVal
  | nan, _ => nan
  | _, nan => nan
  | fin a, fin b => fin (a - b)
  | fin _, posInf => negInf
  | fin _, negInf => posInf
  | posInf, fin _ => posInf
  | negInf, fin _ => negInf
  | posInf, negInf => posInf
  | negInf, posInf => negInf
  | posInf, posInf => nan
  | negInf, negInf => nan

open Classical in
noncomputable def mul : JsVal → JsVal → JsVal
  | nan, _ => nan
  | _, nan => nan
  | fin a, fin b => fin (a * b)
  | fin a, posInf => if a = 0 then nan else if 0 < a then posInf else negInf
  | posInf, fin b => if b = 0 then nan else if 0 < b then posInf else negInf
  | fin a, negInf => if a = 0 then nan else if 0 < a then negInf else posInf
  | negInf, fin b => if b = 0 then nan else if 0 < b then negInf else posInf
  | posInf, posInf => posInf
  | negInf, negInf => posInf
  | posInf, negInf => negInf
  | negInf, posInf => negInf

open Classical in
noncomputable def div : JsVal → JsVal → JsVal
  | nan, _ => nan
  | _, nan => nan
  | fin a, fin b =>
      if b = 0 then (if a = 0 then nan else if 0 < a then posInf else negInf)
      else fin (a / b)
  | fin _, posInf => fin 0
  | fin _, negInf => fin 0
  | posInf, fin b => if 0 ≤ b then posInf else negInf
  | negInf, fin b => if 0 ≤ b then negInf else posInf
  | posInf, posInf => nan
  | posInf, negInf => nan
  | negInf, posInf => nan
  | negInf, negInf => nan

noncomputable def neg : JsVal → JsVal
  | fin a => fin (-a)
  | posInf => negInf
  | negInf => posInf
  | nan => nan

noncomputable def abs : JsVal → JsVal
  | fin a => fin |a|
  | posInf => posInf
  | negInf => posInf
  | nan => nan

open Classical in
/-- `Math.sqrt`: NaN on negative or NaN input. -/
noncomputable def sqrt : JsVal → JsVal
  | fin a => if a < 0 then nan else fin (Real.sqrt a)
  | posInf => posInf
  | negInf => nan
  | nan => nan

/-- `Math.exp`. -/
noncomputable def exp : JsVal → JsVal
  | fin a => fin (Real.exp a)
  | posInf => posInf
  | negInf => fin 0
  | nan => nan

open Classical in
/-- JavaScript `<`: false whenever either operand is NaN. -/
noncomputable def lt : JsVal → JsVal → Bool
  | nan, _ => false
  | _, nan => false
  | fin a, fin b => a < b
  | fin _, posInf => true
  | fin _, negInf => false
  | posInf, fin _ => false
  | negInf, fin _ => true
  | posInf, posInf => false
  | negInf, negInf => false
  | negInf, posInf => true
  | posInf, negInf => false

open Classical in
/-- JavaScript `>=`: false whenever either operand is NaN. -/
noncomputable def ge : JsVal → JsVal → Bool
  | nan, _ => false
  | _, nan => false
  | fin a, fin b => b ≤ a
  | fin _, posInf => false
  | fin _, negInf => true
  | posInf, fin _ => true
  | negInf, fin _ => false
  | posInf, posInf => true
  | negInf, negInf => true
  | negInf, posInf => false
  | posInf, negInf => true

end JsVal

/-! ### Seat fairness over `JsVal` (exact JS semantics of
`src/app/turn-order/page.tsx`, special values included) -/

noncomputable def totalWinsJs (wins : List JsVal) : JsVal :=
  wins.foldl JsVal.add (.fin 0)

noncomputable def chiSquareJs (wins : List JsVal) : JsVal :=
  let expectedWins := JsVal.div (totalWinsJs wins) (.fin 4)
  wins.foldl
    (fun sum w =>
      JsVal.add sum (JsVal.div (JsVal.mul (JsVal.sub w expectedWins) (JsVal.sub w expectedWins))
        expectedWins))
    (.fin 0)

noncomputable def cohensWJs (wins : List JsVal) : JsVal :=
  JsVal.sqrt (JsVal.div (chiSquareJs wins) (totalWinsJs wins))

noncomputable def effectInterpretationJs (w : JsVal) : String :=
  if JsVal.lt w (.fin 0.1) then "small"
  else if JsVal.lt w (.fin 0.3) then "medium"
  else "large"

/-! ### Normal CDF and p-value over `JsVal` (exact JS semantics of
`src/app/commanders/[id]/page.tsx`, special values included) -/

noncomputable def normalCdfJs (x : JsVal) : JsVal :=
  let sign : JsVal := if JsVal.ge x (.fin 0) then .fin 1 else .fin (-1)
  let absX := JsVal.abs x
  let t := JsVal.div (.fin 1) (JsVal.add (.fin 1) (JsVal.mul (.fin 0.3275911) absX))
  let a1 : JsVal := .fin 0.254829592
  let a2 : JsVal := .fin (-0.284496736)
  let a3 : JsVal := .fin 1.421413741
  let a4 : JsVal := .fin (-1.453152027)
  let a5 : JsVal := .fin 1.061405429
  let poly := JsVal.mul
    (JsVal.add (JsVal.mul (JsVal.add (JsVal.mul (JsVal.add (JsVal.mul
      (JsVal.add (JsVal.mul a5 t) a4) t) a3) t) a2) t) a1) t
  let erf := JsVal.sub (.fin 1) (JsVal.mul poly (JsVal.exp (JsVal.mul (JsVal.neg absX) absX)))
  JsVal.mul (.fin 0.5) (JsVal.add (.fin 1) (JsVal.mul sign erf))

noncomputable def computePValueJs (delta stdDev deckCount : JsVal) : JsVal :=
  let zScore := JsVal.div delta (JsVal.div stdDev (JsVal.sqrt deckCount))
  JsVal.mul (.fin 2) (JsVal.sub (.fin 1) (normalCdfJs (JsVal.abs zScore)))

/-! ## Theorems -/

/-- If `a` is below every element of `l`, it is the minimum of `a :: l`. -/
lemma min?_cons_of_le (a : ℕ) (l : List ℕ) (h : ∀ x ∈ l, a ≤ x) :
    (a :: l).min? = some a := by
  rw [List.min?_cons]
  cases hl : l.min? with
  | none => rfl
  | some b =>
      have hb : b ∈ l := List.min?_mem (fun a b => min_choice a b) hl
      simp [min_eq_left (h b hb)]

/-- On a series sorted ascending by `round_number`, the code's forward
scan returns exactly the smallest round number whose cumulative survival
is at or below the threshold. -/
lemma scanRound_eq_min (t : ℚ) (data : List SurvivalPoint)
    (hsorted : data.Pairwise (fun a b => a.round_number ≤ b.round_number)) :
    (data.find? (fun p => p.cumulative_survival ≤ t)).map (·.round_number) =
      specPercentileRound t data := by
  induction data with
  | nil => rfl
  | cons p rest ih =>
      rw [List.pairwise_cons] at hsorted
      obtain ⟨h1, h2⟩ := hsorted
      by_cases hp : p.cumulative_survival ≤ t
      · rw [List.find?_cons_of_pos _ (by simpa using hp)]
        unfold specPercentileRound
        rw [List.filter_cons_of_pos (by simpa using hp), List.map_cons]
        rw [min?_cons_of_le]
        · rfl
        · intro x hx
          simp only [List.mem_map, List.mem_filter] at hx
          obtain ⟨q, ⟨hq, _⟩, rfl⟩ := hx
          exact h1 q hq
      · rw [List.find?_cons_of_neg _ (by simpa using hp)]
        unfold specPercentileRound
        rw [List.filter_cons_of_neg (by simpa using hp)]
        exact ih h2

/-- C4: on every survival series sorted ascending by `round_number`, the
median lookup returns the smallest round number with cumulative survival
at or below `0.5` and the 75th-percentile lookup the smallest with
cumulative survival at or below `0.25` (first match of a linear forward
scan); each returns `none` exactly when no such point exists, in
particular on the empty series. -/
theorem survival_milestones_correct (data : List SurvivalPoint)
    (hsorted : data.Pairwise (fun a b => a.round_number ≤ b.round_number)) :
    getMedianSurvivalRound data = specPercentileRound 0.5 data ∧
    get75thPercentileRound data = specPercentileRound 0.25 data ∧
    (getMedianSurvivalRound data = none ↔
      ∀ p ∈ data, ¬ p.cumulative_survival ≤ 0.5) ∧
    (get75thPercentileRound data = none ↔
      ∀ p ∈ data, ¬ p.cumulative_survival ≤ 0.25) ∧
    getMedianSurvivalRound ([] : List SurvivalPoint) = none ∧
    get75thPercentileRound ([] : List SurvivalPoint) = none := by
  refine ⟨scanRound_eq_min 0.5 data hsorted, scanRound_eq_min 0.25 data hsorted,
    ?_, ?_, rfl, rfl⟩
  · unfold getMedianSurvivalRound
    rw [Option.map_eq_none', List.find?_eq_none]
    simp
  · unfold get75thPercentileRound
    rw [Option.map_eq_none', List.find?_eq_none]
    simp

/-- Witness for C4 at the series of rounds 1, 2, 3 with cumulative
survivals 1, 0.6, 0.4: the median round is 3, and on a series that never
drops to 0.25 the percentile lookup yields `none`. -/
theorem survival_milestones_correct_witness :
    getMedianSurvivalRound
        [⟨1, 0, 0, 0, 1⟩, ⟨2, 0, 0, 0, 3/5⟩, ⟨3, 0, 0, 0, 2/5⟩] = some 3 ∧
    get75thPercentileRound
        [⟨1, 0, 0, 0, 1⟩, ⟨2, 0, 0, 0, 3/5⟩, ⟨3, 0, 0, 0, 2/5⟩] = none := by
  have h := survival_milestones_correct
    [⟨1, 0, 0, 0, 1⟩, ⟨2, 0, 0, 0, 3/5⟩, ⟨3, 0, 0, 0, 2/5⟩] (by decide)
  constructor
  · rw [h.1]
    simp only [specPercentileRound, List.filter, List.map]
    norm_num [List.min?]
  · rw [h.2.1]
    simp only [specPercentileRound, List.filter, List.map]
    norm_num [List.min?]

/-- C1: for every 4-seat input with positive total wins, the page's
folds compute exactly `χ² = Σᵢ (winsᵢ - T/4)² / (T/4)` with
`T = Σᵢ winsᵢ`, and `cohensW = √(χ² / T)`. -/
theorem seatFairness_formula (w0 w1 w2 w3 : ℝ)
    (hpos : 0 < w0 + w1 + w2 + w3) :
    chiSquare [w0, w1, w2, w3] =
      (w0 - (w0 + w1 + w2 + w3) / 4) ^ 2 / ((w0 + w1 + w2 + w3) / 4) +
      (w1 - (w0 + w1 + w2 + w3) / 4) ^ 2 / ((w0 + w1 + w2 + w3) / 4) +
      (w2 - (w0 + w1 + w2 + w3) / 4) ^ 2 / ((w0 + w1 + w2 + w3) / 4) +
      (w3 - (w0 + w1 + w2 + w3) / 4) ^ 2 / ((w0 + w1 + w2 + w3) / 4) ∧
    totalWins [w0, w1, w2, w3] = w0 + w1 + w2 + w3 ∧
    cohensW [w0, w1, w2, w3] =
      Real.sqrt (chiSquare [w0, w1, w2, w3] / (w0 + w1 + w2 + w3)) := by
  have ht : totalWins [w0, w1, w2, w3] = w0 + w1 + w2 + w3 := by
    simp [totalWins, List.foldl]
  refine ⟨?_, ht, ?_⟩
  · simp only [chiSquare, totalWins, List.foldl]
    ring
  · rw [cohensW, ht]

/-- Witness for C1 at the input `[1, 1, 1, 1]`. -/
theorem seatFairness_formula_witness :
    chiSquare [(1 : ℝ), 1, 1, 1] =
      ((1 : ℝ) - (1 + 1 + 1 + 1) / 4) ^ 2 / ((1 + 1 + 1 + 1) / 4) +
      ((1 : ℝ) - (1 + 1 + 1 + 1) / 4) ^ 2 / ((1 + 1 + 1 + 1) / 4) +
      ((1 : ℝ) - (1 + 1 + 1 + 1) / 4) ^ 2 / ((1 + 1 + 1 + 1) / 4) +
      ((1 : ℝ) - (1 + 1 + 1 + 1) / 4) ^ 2 / ((1 + 1 + 1 + 1) / 4) ∧
    totalWins [(1 : ℝ), 1, 1, 1] = 1 + 1 + 1 + 1 ∧
    cohensW [(1 : ℝ), 1, 1, 1] =
      Real.sqrt (chiSquare [(1 : ℝ), 1, 1, 1] / (1 + 1 + 1 + 1)) :=
  seatFairness_formula 1 1 1 1 (by norm_num)

/-- C9 evidence: the seat-fairness computation performs no cardinality
validation — on a 5-entry input it silently computes the same fold
(here `χ² = 1/4` over five seats of one win each) instead of rejecting
the input. -/
theorem seatFairness_computes_on_five_entries :
    chiSquare [(1 : ℝ), 1, 1, 1, 1] = 1 / 4 ∧
    totalWins [(1 : ℝ), 1, 1, 1, 1] = 5 := by
  constructor
  · simp only [chiSquare, totalWins, List.foldl]
    norm_num
  · simp only [totalWins, List.foldl]
    norm_num

/-- C3: effect-size classification is the step function of Cohen's w
with strict upper bounds: `w < 0.1 → small`, `0.1 ≤ w < 0.3 → medium`,
`0.3 ≤ w → large`; in particular `w = 0.1` is medium and `w = 0.3`
is large. -/
theorem effectInterpretation_step (w : ℝ) :
    (w < 0.1 → effectInterpretation w = "small") ∧
    (0.1 ≤ w → w < 0.3 → effectInterpretation w = "medium") ∧
    (0.3 ≤ w → effectInterpretation w = "large") ∧
    effectInterpretation 0.1 = "medium" ∧
    effectInterpretation 0.3 = "large" := by
  refine ⟨?_, ?_, ?_, ?_, ?_⟩
  · intro h
    rw [effectInterpretation, if_pos h]
  · intro h1 h2
    rw [effectInterpretation, if_neg (not_lt.mpr h1), if_pos h2]
  · intro h
    rw [effectInterpretation, if_neg, if_neg]
    · exact not_lt.mpr h
    · exact not_lt.mpr (le_trans (by norm_num) h)
  · rw [effectInterpretation, if_neg (by norm_num), if_pos (by norm_num)]
  · rw [effectInterpretation, if_neg (by norm_num), if_neg (by norm_num)]

/-- Witness for C3 at `w = 0.05`, `w = 0.2` and `w = 0.5`. -/
theorem effectInterpretation_step_witness :
    effectInterpretation 0.05 = "small" ∧
    effectInterpretation 0.2 = "medium" ∧
    effectInterpretation 0.5 = "large" :=
  ⟨(effectInterpretation_step 0.05).1 (by norm_num),
   (effectInterpretation_step 0.2).2.1 (by norm_num) (by norm_num),
   (effectInterpretation_step 0.5).2.2.1 (by norm_num)⟩

/-- C2: the code's `normalCdf` coincides everywhere with the
Abramowitz-Stegun rational approximation exactly as the spec writes it
(coefficients a1..a5, `t = 1/(1 + 0.3275911·|x|)`, factor `exp(-x²)`,
and `0.5·(1 + sign(x)·erf(|x|))` with the code's sign convention at 0). -/
theorem normalCdf_matches_spec (x : ℝ) : normalCdf x = normalCdfSpec x := by
  simp only [normalCdf, normalCdfSpec]
  rw [show (-|x|) * |x| = -(x ^ 2) by rw [neg_mul, abs_mul_abs_self, sq]]

/-- C6 counterexample: at delta 0, stdDev 1 and deck count 1 the
computed two-sided p-value is exactly `0.999999999` — not `1.0`.  The
five Abramowitz-Stegun coefficients sum to `0.999999999`, so the
approximate erf does not vanish at 0. -/
theorem computePValue_zero_delta_not_one :
    computePValue 0 1 1 ≠ 1 ∧ computePValue 0 1 1 = 0.999999999 := by
  have h : computePValue 0 1 1 = 0.999999999 := by
    simp only [computePValue, normalCdf, Nat.cast_one, Real.sqrt_one, zero_div, abs_zero]
    norm_num [Real.exp_zero]
  exact ⟨by rw [h]; norm_num, h⟩

/-- C6 amended: for every stdDev > 0 and every positive deck count, the
two-sided p-value of a zero delta equals `0.999999999` exactly — close
to, but not equal to, `1.0`. -/
theorem computePValue_zero_delta (s : ℝ) (n : ℕ) (hs : 0 < s) (hn : 0 < n) :
    computePValue 0 s n = 0.999999999 := by
  simp only [computePValue, normalCdf, zero_div, abs_zero]
  norm_num [Real.exp_zero]

/-- Witness for the amended C6 at stdDev 1, deck count 1. -/
theorem computePValue_zero_delta_witness :
    computePValue 0 1 1 = 0.999999999 :=
  computePValue_zero_delta 1 1 (by norm_num) (by norm_num)

/-- C7: the two-sided p-value is symmetric in the sign of the delta. -/
theorem computePValue_symm (d s : ℝ) (n : ℕ) (hs : 0 < s) (hn : 0 < n) :
    computePValue d s n = computePValue (-d) s n := by
  simp only [computePValue, neg_div, abs_neg]

/-- Witness for C7 at delta 0.05, stdDev 1, deck count 4. -/
theorem computePValue_symm_witness :
    computePValue 0.05 1 4 = computePValue (-0.05) 1 4 :=
  computePValue_symm 0.05 1 4 (by norm_num) (by norm_num)

/-- C8 evidence: on a 4-seat input whose wins sum to zero the page does
not fail — the division `0/0` makes `chiSquare` NaN, the NaN propagates
into `cohensW`, and the NaN-is-never-less-than comparison then
classifies the effect as `"large"`. -/
theorem seatFairness_zero_wins_nan_propagation :
    chiSquareJs [.fin 0, .fin 0, .fin 0, .fin 0] = JsVal.nan ∧
    cohensWJs [.fin 0, .fin 0, .fin 0, .fin 0] = JsVal.nan ∧
    effectInterpretationJs (cohensWJs [.fin 0, .fin 0, .fin 0, .fin 0]) = "large" := by
  have hT : totalWinsJs [JsVal.fin 0, .fin 0, .fin 0, .fin 0] = JsVal.fin 0 := by
    simp [totalWinsJs, List.foldl, JsVal.add]
  have hchi : chiSquareJs [JsVal.fin 0, .fin 0, .fin 0, .fin 0] = JsVal.nan := by
    simp only [chiSquareJs, hT, List.foldl]
    norm_num [JsVal.sub, JsVal.mul, JsVal.div, JsVal.add]
  have hw : cohensWJs [JsVal.fin 0, .fin 0, .fin 0, .fin 0] = JsVal.nan := by
    simp only [cohensWJs, hchi, hT]
    simp [JsVal.div, JsVal.sqrt]
  refine ⟨hchi, hw, ?_⟩
  rw [hw]
  simp [effectInterpretationJs, JsVal.lt]

/-- C5 evidence: the p-value code divides by the standard error without
any zero special case.  With `stdDev = 0` and `delta = 0` the z-score is
`0/0 = NaN` and the p-value is NaN (not the claimed 1); with
`stdDev = 0` and `delta = 0.05 ≠ 0` the z-score is `+∞` and the
p-value comes out exactly 0. -/
theorem computePValue_zero_se_behavior :
    computePValueJs (.fin 0) (.fin 0) (.fin 1) = JsVal.nan ∧
    computePValueJs (.fin 0.05) (.fin 0) (.fin 1) = JsVal.fin 0 := by
  have hsqrt1 : JsVal.sqrt (JsVal.fin 1) = JsVal.fin 1 := by
    norm_num [JsVal.sqrt, Real.sqrt_one]
  have hSE : JsVal.div (JsVal.fin 0) (JsVal.fin 1) = JsVal.fin 0 := by
    norm_num [JsVal.div]
  have hz : JsVal.div (JsVal.fin 0) (JsVal.fin 0) = JsVal.nan := by
    norm_num [JsVal.div]
  have hcdf_nan : normalCdfJs JsVal.nan = JsVal.nan := by
    simp [normalCdfJs, JsVal.ge, JsVal.abs, JsVal.mul, JsVal.add, JsVal.div,
      JsVal.sub, JsVal.neg, JsVal.exp]
  have hcdf_inf : normalCdfJs JsVal.posInf = JsVal.fin 1 := by
    norm_num [normalCdfJs, JsVal.ge, JsVal.abs, JsVal.mul, JsVal.add, JsVal.div,
      JsVal.sub, JsVal.neg, JsVal.exp]
  constructor
  · simp only [computePValueJs, hsqrt1, hSE, hz, JsVal.abs, hcdf_nan, JsVal.sub, JsVal.mul]
  · simp only [computePValueJs, hsqrt1, hSE]
    norm_num [JsVal.div, JsVal.abs, hcdf_inf, JsVal.sub, JsVal.mul]

/-- C10: the `toNumber` coercion boundary maps `null` and `undefined`
to 0, routes strings through `parseFloat`, and passes numbers through
unchanged; consequently a matchup row with a missing `win_rate`
displays a rate of 0 rather than erroring. -/
theorem toNumber_boundary (parseFloat : String → ℝ) :
    toNumber parseFloat .nullV = 0 ∧
    toNumber parseFloat .undef = 0 ∧
    (∀ s, toNumber parseFloat (.str s) = parseFloat s) ∧
    (∀ x, toNumber parseFloat (.num x) = x) ∧
    matchupDisplayedWinRate parseFloat .nullV = 0 ∧
    matchupDisplayedWinRate parseFloat .undef = 0 := by
  refine ⟨rfl, rfl, fun s => rfl, fun x => rfl, ?_, ?_⟩ <;>
    simp [matchupDisplayedWinRate, toNumber]

end CedhAnalytics
